import Mathlib

/-!
Verification of the rhythm-game timing/judgment core of this repository.

The embedding below is a shallow translation of the gameplay logic of the
main source file (the revision containing the HP gauge and particle
effects) together with the chart loader in `file_utils.cpp`:

* `scanJudge` translates the key-press judgment loop (the scan over
  `activeNotes` performed when a lane key is pressed while PLAYING);
* `admitFrom` translates the note-admission `while` loop;
* `missMark` translates the per-frame timeout ("Miss") pass;
* the eviction `remove_if` and the terminal check (`hp <= 0`, then
  `music stopped && activeNotes.empty()`) appear inside `frame`, which
  mirrors one iteration of the main loop while the state is PLAYING:
  key events first, then admission, timeout, eviction, and the terminal
  check;
* `extractNotes` / `IsLoadResult` model `loadChartFromMidi`: note-on
  extraction is deterministic, while the final `std::sort` call is
  modelled by its contract (a permutation of the input ordered by
  `spawnTime`), since `std::sort` leaves the relative order of
  equal-timestamp notes unspecified.

Timestamps are `float`/`double` in the source; they are modelled as exact
rationals here, which preserves every comparison the claims are about.
C++ `int` fields are modelled as `Int`.
-/

namespace MusicGame

/-- Timing window for a Perfect judgment (`PERFECT_WINDOW = 0.08f`). -/
def PERFECT_WINDOW : ℚ := 8 / 100

/-- Timing window for a Great judgment (`GREAT_WINDOW = 0.15f`). -/
def GREAT_WINDOW : ℚ := 15 / 100

/-- Number of lanes (`LANE_COUNT = 6`). -/
def LANE_COUNT : Nat := 6

/-- Maximum health (`const int MAX_HP = 100`). -/
def MAX_HP : Int := 100

/-- The judgment enum of `types.hpp`. -/
inductive Judgment where
  | NONE
  | PERFECT
  | GREAT
  | MISS
deriving DecidableEq, Repr

/-- The gameplay-relevant fields of the `Note` struct: lane index,
judgment-line time in seconds, and the judged flag (the SFML shape is
rendering-only and omitted). -/
structure Note where
  laneIndex : Nat
  spawnTime : ℚ
  isProcessed : Bool
deriving DecidableEq, Repr

/-- The loose progress locals of `main` (`score`, `combo`, `maxCombo`,
tier counters, `hp`) gathered into one record. -/
structure Progress where
  score : Int
  combo : Int
  maxCombo : Int
  perfectCount : Int
  greatCount : Int
  missCount : Int
  hp : Int
deriving DecidableEq, Repr

/-- Translation of `std::abs` on the modelled time values. -/
def fabs (q : ℚ) : ℚ := if q < 0 then -q else q

/-- Translation of the key-press judgment loop: scan `activeNotes` in
order; for each unjudged note of the pressed lane compute
`diff = |musicTime - spawnTime|`; `diff < PERFECT_WINDOW` gives Perfect,
else `diff < GREAT_WINDOW` gives Great (each adds score, combo, a tier
count and clamped HP recovery, marks the note and stops the scan);
otherwise the `if (combo > maxCombo)` update still runs and the scan
continues with the next note. Returns the updated list, the updated
progress and the judgment. -/
def scanJudge (lane : Nat) (t : ℚ) : List Note → Progress → List Note × Progress × Judgment
  | [], p => ([], p, Judgment.NONE)
  | n :: rest, p =>
    if n.isProcessed = false ∧ n.laneIndex = lane then
      if fabs (t - n.spawnTime) < PERFECT_WINDOW then
        let p1 : Progress :=
          { p with score := p.score + 100, combo := p.combo + 1,
                   perfectCount := p.perfectCount + 1,
                   hp := min MAX_HP (p.hp + 2) }
        let p2 : Progress :=
          { p1 with maxCombo := if p1.combo > p1.maxCombo then p1.combo else p1.maxCombo }
        ({ n with isProcessed := true } :: rest, p2, Judgment.PERFECT)
      else if fabs (t - n.spawnTime) < GREAT_WINDOW then
        let p1 : Progress :=
          { p with score := p.score + 50, combo := p.combo + 1,
                   greatCount := p.greatCount + 1,
                   hp := min MAX_HP (p.hp + 1) }
        let p2 : Progress :=
          { p1 with maxCombo := if p1.combo > p1.maxCombo then p1.combo else p1.maxCombo }
        ({ n with isProcessed := true } :: rest, p2, Judgment.GREAT)
      else
        let p' : Progress :=
          { p with maxCombo := if p.combo > p.maxCombo then p.combo else p.maxCombo }
        let r := scanJudge lane t rest p'
        (n :: r.1, r.2.1, r.2.2)
    else
      let r := scanJudge lane t rest p
      (n :: r.1, r.2.1, r.2.2)

/-- Translation of the admission `while` loop: starting from the pending
suffix of the chart, admit consecutive notes while
`spawnTime < adjustedMusicTime + fallTime`; returns the admitted prefix
and how many notes were admitted (the cursor advance). -/
def admitFrom (bound : ℚ) : List Note → List Note × Nat
  | [] => ([], 0)
  | n :: rest =>
    if n.spawnTime < bound then
      let r := admitFrom bound rest
      (n :: r.1, r.2 + 1)
    else ([], 0)

/-- The timeout condition of the per-frame Miss pass:
`!note.isProcessed` and `note.spawnTime - adjustedMusicTime < -GREAT_WINDOW`. -/
def timedOut (adjT : ℚ) (n : Note) : Prop :=
  n.isProcessed = false ∧ n.spawnTime - adjT < -GREAT_WINDOW

instance (adjT : ℚ) (n : Note) : Decidable (timedOut adjT n) := by
  unfold timedOut; infer_instance

/-- Translation of the per-frame Miss pass: every active note satisfying
`timedOut` is marked judged, and for each such note `combo = 0`,
`missCount++`, `hp -= 10`. -/
def missMark (adjT : ℚ) : List Note → Progress → List Note × Progress
  | [], p => ([], p)
  | n :: rest, p =>
    if timedOut adjT n then
      let p' : Progress := { p with combo := 0, missCount := p.missCount + 1, hp := p.hp - 10 }
      let r := missMark adjT rest p'
      ({ n with isProcessed := true } :: r.1, r.2)
    else
      let r := missMark adjT rest p
      (n :: r.1, r.2)

/-- The terminal flag produced once per frame. -/
inductive TerminalFlag where
  | stillPlaying
  | failed
  | completed
deriving DecidableEq, Repr

/-- Translation of the end-of-frame check: `hp <= 0` gives game over;
otherwise `music stopped && activeNotes.empty()` gives the results
screen; otherwise play continues. -/
def terminalCheck (hp : Int) (musicStopped : Bool) (active : List Note) : TerminalFlag :=
  if hp ≤ 0 then TerminalFlag.failed
  else if musicStopped && active.isEmpty then TerminalFlag.completed
  else TerminalFlag.stillPlaying

/-- The PLAYING-state variables threaded through a frame: the chart
cursor `nextNoteIndex`, the `activeNotes` vector and the progress
locals. -/
structure PlayState where
  nextNoteIndex : Nat
  activeNotes : List Note
  prog : Progress
deriving DecidableEq, Repr

/-- Applying one queued key event (lane, music time) to the state. -/
def judgeEvent (st : PlayState) (inp : Nat × ℚ) : PlayState :=
  let r := scanJudge inp.1 inp.2 st.activeNotes st.prog
  { st with activeNotes := r.1, prog := r.2.1 }

/-- The state set by starting (or retrying) a session:
all counters zeroed, `hp = MAX_HP`, `nextNoteIndex = 0`,
`activeNotes.clear()`. -/
def initState : PlayState :=
  { nextNoteIndex := 0, activeNotes := [], prog := ⟨0, 0, 0, 0, 0, 0, MAX_HP⟩ }

/-- One iteration of the main loop while PLAYING, in source order:
(1) the polled key events are judged in arrival order; (2) the update
block runs — admission of pending chart notes, the timeout Miss pass,
eviction of judged notes older than one second; (3) the terminal check.
`adjT` is `adjustedMusicTime`, `fallT` is `fallTime`, `musicStopped`
is whether `music.getStatus() == Stopped`. -/
def frame (chart : List Note) (inputs : List (Nat × ℚ)) (adjT fallT : ℚ)
    (musicStopped : Bool) (st : PlayState) : PlayState × TerminalFlag :=
  let s1 := inputs.foldl judgeEvent st
  let adm := admitFrom (adjT + fallT) (chart.drop s1.nextNoteIndex)
  let act1 := s1.activeNotes ++ adm.1
  let idx1 := s1.nextNoteIndex + adm.2
  let mm := missMark adjT act1 s1.prog
  let act2 := mm.1.filter (fun n => !(n.isProcessed && decide (n.spawnTime < adjT - 1)))
  let s2 : PlayState := { nextNoteIndex := idx1, activeNotes := act2, prog := mm.2 }
  (s2, terminalCheck s2.prog.hp musicStopped s2.activeNotes)

/-- Phase (b)+(b') of a frame in isolation: admission, timeout pass and
eviction (the scheduler work of the update block). -/
def schedulerPhase (chart : List Note) (adjT fallT : ℚ) (st : PlayState) : PlayState :=
  let adm := admitFrom (adjT + fallT) (chart.drop st.nextNoteIndex)
  let act1 := st.activeNotes ++ adm.1
  let mm := missMark adjT act1 st.prog
  let act2 := mm.1.filter (fun n => !(n.isProcessed && decide (n.spawnTime < adjT - 1)))
  { nextNoteIndex := st.nextNoteIndex + adm.2, activeNotes := act2, prog := mm.2 }

/-- Phase (a) of a frame in isolation: the queued key events in arrival
order. -/
def processInputs (inputs : List (Nat × ℚ)) (st : PlayState) : PlayState :=
  inputs.foldl judgeEvent st

/-- Modelled from the spec: the per-tick order §5 prescribes —
scheduler advance first (admission + timeout + eviction), then the
queued inputs, then the terminal check. Written only to compare with
`frame`, which is translated from the source. -/
def frameSpecOrdered (chart : List Note) (inputs : List (Nat × ℚ)) (adjT fallT : ℚ)
    (musicStopped : Bool) (st : PlayState) : PlayState × TerminalFlag :=
  let s1 := schedulerPhase chart adjT fallT st
  let s2 := processInputs inputs s1
  (s2, terminalCheck s2.prog.hp musicStopped s2.activeNotes)

/-- The gameplay-relevant fields of one merged MIDI event, as consumed by
`loadChartFromMidi`: whether it is a note-on, its key number, and its
tempo-mapped time in seconds. -/
structure MidiEvent where
  isNoteOn : Bool
  keyNumber : Nat
  seconds : ℚ
deriving DecidableEq, Repr

/-- The note-extraction loop of `loadChartFromMidi`: one `Note` per
note-on event, `laneIndex = keyNumber % LANE_COUNT`, `spawnTime` the
event's seconds, `isProcessed` default-false; source order preserved. -/
def extractNotes (evs : List MidiEvent) : List Note :=
  (evs.filter (fun e => e.isNoteOn)).map
    (fun e => { laneIndex := e.keyNumber % LANE_COUNT, spawnTime := e.seconds, isProcessed := false })

/-- Sortedness by `spawnTime` (the comparator passed to `std::sort` is
`a.spawnTime < b.spawnTime`; being sorted for it means non-decreasing
timestamps). -/
def SortedByTime (l : List Note) : Prop :=
  List.Pairwise (fun a b => a.spawnTime ≤ b.spawnTime) l

instance (l : List Note) : Decidable (SortedByTime l) := by
  unfold SortedByTime; infer_instance

/-- The contract of the `std::sort` call at the end of
`loadChartFromMidi`: the result is a permutation of the extracted notes,
non-decreasing in `spawnTime`. `std::sort` (unlike `std::stable_sort`)
promises nothing about the relative order of equal-timestamp notes, so
the call is modelled by this relation rather than by one fixed output. -/
def IsStdSortResult (input output : List Note) : Prop :=
  output.Perm input ∧ SortedByTime output

/-- The whole of `loadChartFromMidi`: an unreadable file yields the empty
vector; otherwise the note-ons are extracted in order and sorted. -/
def IsLoadResult (src : Option (List MidiEvent)) (chart : List Note) : Prop :=
  match src with
  | Option.none => chart = []
  | Option.some evs => IsStdSortResult (extractNotes evs) chart

/-- The session-start flow around `loadChartFromMidi`: an empty chart
aborts (`if (chart.empty()) { return -1; }`); otherwise play starts from
`initState`. -/
def startSession (chart : List Note) : Option PlayState :=
  if chart = [] then Option.none else Option.some initState

/-- An unjudged note of the pressed lane inside the wider tolerance —
exactly the notes the key-press scan can consume. -/
def Matchable (lane : Nat) (t : ℚ) (n : Note) : Prop :=
  n.isProcessed = false ∧ n.laneIndex = lane ∧ fabs (t - n.spawnTime) < GREAT_WINDOW

instance (lane : Nat) (t : ℚ) (n : Note) : Decidable (Matchable lane t n) := by
  unfold Matchable; infer_instance

/-- How a judging pass may change one active note: the lane and
timestamp are untouched, an already-judged note is left exactly as it
was, and (since `isProcessed` fields can otherwise only be overwritten
with `true`) the judged flag never reverts from true to false. -/
def FlagMono (a b : Note) : Prop :=
  b.laneIndex = a.laneIndex ∧ b.spawnTime = a.spawnTime ∧
    (a.isProcessed = true → b = a) ∧ (a.isProcessed = true → b.isProcessed = true)

/-- Number of active notes the Miss pass fires on. -/
def missCountP (adjT : ℚ) (l : List Note) : Nat :=
  l.countP (fun n => decide (timedOut adjT n))

/-- Score is determined by the tier counters: 100 per Perfect plus 50
per Great. -/
def scoreInv (p : Progress) : Prop :=
  p.score = 100 * p.perfectCount + 50 * p.greatCount

end MusicGame


namespace MusicGame

theorem flagMono_refl (a : Note) : FlagMono a a :=
  ⟨rfl, rfl, fun _ => rfl, fun h => h⟩

theorem flagMono_mark (a : Note) (h : a.isProcessed = false) :
    FlagMono a { a with isProcessed := true } :=
  ⟨rfl, rfl, fun hT => absurd hT (by simp [h]), fun _ => rfl⟩

theorem forall2_flagMono_refl (l : List Note) : List.Forall₂ FlagMono l l :=
  List.forall₂_same.mpr fun x _ => flagMono_refl x

theorem scanJudge_flagMono (lane : Nat) (t : ℚ) (l : List Note) (p : Progress) :
    List.Forall₂ FlagMono l (scanJudge lane t l p).1 := by
  induction l generalizing p with
  | nil => simp [scanJudge]
  | cons n rest ih =>
    by_cases h1 : n.isProcessed = false ∧ n.laneIndex = lane
    · by_cases h2 : fabs (t - n.spawnTime) < PERFECT_WINDOW
      · simp only [scanJudge, if_pos h1, if_pos h2]
        exact List.Forall₂.cons (flagMono_mark n h1.1) (forall2_flagMono_refl rest)
      · by_cases h3 : fabs (t - n.spawnTime) < GREAT_WINDOW
        · simp only [scanJudge, if_pos h1, if_neg h2, if_pos h3]
          exact List.Forall₂.cons (flagMono_mark n h1.1) (forall2_flagMono_refl rest)
        · simp only [scanJudge, if_pos h1, if_neg h2, if_neg h3]
          exact List.Forall₂.cons (flagMono_refl n) (ih _)
    · simp only [scanJudge, if_neg h1]
      exact List.Forall₂.cons (flagMono_refl n) (ih _)

theorem missMark_flagMono (adjT : ℚ) (l : List Note) (p : Progress) :
    List.Forall₂ FlagMono l (missMark adjT l p).1 := by
  induction l generalizing p with
  | nil => simp [missMark]
  | cons n rest ih =>
    by_cases h1 : timedOut adjT n
    · simp only [missMark, if_pos h1]
      exact List.Forall₂.cons (flagMono_mark n h1.1) (ih _)
    · simp only [missMark, if_neg h1]
      exact List.Forall₂.cons (flagMono_refl n) (ih _)

end MusicGame

namespace MusicGame

theorem perfect_window_lt_great : PERFECT_WINDOW < GREAT_WINDOW := by
  norm_num [PERFECT_WINDOW, GREAT_WINDOW]

theorem maxCombo_update_noop (p : Progress) (h : p.combo ≤ p.maxCombo) :
    ({ p with maxCombo := if p.combo > p.maxCombo then p.combo else p.maxCombo } : Progress) = p := by
  have hn : ¬ (p.combo > p.maxCombo) := not_lt.mpr h
  simp [hn]

theorem scanJudge_no_match (lane : Nat) (t : ℚ) (l : List Note) (p : Progress)
    (hall : ∀ m ∈ l, ¬ Matchable lane t m) (hmc : p.combo ≤ p.maxCombo) :
    scanJudge lane t l p = (l, p, Judgment.NONE) := by
  induction l generalizing p with
  | nil => simp [scanJudge]
  | cons n rest ih =>
    have hn : ¬ Matchable lane t n := hall n (by simp)
    have hrest : ∀ m ∈ rest, ¬ Matchable lane t m := fun m hm => hall m (by simp [hm])
    by_cases h1 : n.isProcessed = false ∧ n.laneIndex = lane
    · have h3 : ¬ fabs (t - n.spawnTime) < GREAT_WINDOW := by
        intro hw; exact hn ⟨h1.1, h1.2, hw⟩
      have h2 : ¬ fabs (t - n.spawnTime) < PERFECT_WINDOW := by
        intro hw; exact h3 (lt_trans hw perfect_window_lt_great)
      simp only [scanJudge, if_pos h1, if_neg h2, if_neg h3]
      rw [maxCombo_update_noop p hmc, ih p hrest hmc]
    · simp only [scanJudge, if_neg h1]
      rw [ih p hrest hmc]

theorem scanJudge_match_list (lane : Nat) (t : ℚ) (l₁ : List Note) (n : Note) (l₂ : List Note)
    (p : Progress) (h₁ : ∀ m ∈ l₁, ¬ Matchable lane t m) (hn : Matchable lane t n) :
    (scanJudge lane t (l₁ ++ n :: l₂) p).1 = l₁ ++ ({ n with isProcessed := true } :: l₂) ∧
    (scanJudge lane t (l₁ ++ n :: l₂) p).2.2 ≠ Judgment.NONE := by
  induction l₁ generalizing p with
  | nil =>
    by_cases h2 : fabs (t - n.spawnTime) < PERFECT_WINDOW
    · simp only [List.nil_append, scanJudge, if_pos (And.intro hn.1 hn.2.1), if_pos h2]
      exact ⟨by simp, by simp⟩
    · simp only [List.nil_append, scanJudge, if_pos (And.intro hn.1 hn.2.1), if_neg h2,
        if_pos hn.2.2]
      exact ⟨by simp, by simp⟩
  | cons m rest ih =>
    have hm : ¬ Matchable lane t m := h₁ m (by simp)
    have hrest : ∀ x ∈ rest, ¬ Matchable lane t x := fun x hx => h₁ x (by simp [hx])
    by_cases h1 : m.isProcessed = false ∧ m.laneIndex = lane
    · have h3 : ¬ fabs (t - m.spawnTime) < GREAT_WINDOW := by
        intro hw; exact hm ⟨h1.1, h1.2, hw⟩
      have h2 : ¬ fabs (t - m.spawnTime) < PERFECT_WINDOW := by
        intro hw; exact h3 (lt_trans hw perfect_window_lt_great)
      simp only [List.cons_append, scanJudge, if_pos h1, if_neg h2, if_neg h3, List.append_eq]
      have h := ih ({ p with
        maxCombo := if p.combo > p.maxCombo then p.combo else p.maxCombo }) hrest
      exact ⟨by simp [h.1], h.2⟩
    · simp only [List.cons_append, scanJudge, if_neg h1, List.append_eq]
      have h := ih p hrest
      exact ⟨by simp [h.1], h.2⟩

theorem scanJudge_perfect (lane : Nat) (t : ℚ) (l₁ : List Note) (n : Note) (l₂ : List Note)
    (p : Progress) (h₁ : ∀ m ∈ l₁, ¬ Matchable lane t m)
    (hproc : n.isProcessed = false) (hlane : n.laneIndex = lane)
    (hmc : p.combo ≤ p.maxCombo) (h2 : fabs (t - n.spawnTime) < PERFECT_WINDOW) :
    scanJudge lane t (l₁ ++ n :: l₂) p =
      (l₁ ++ ({ n with isProcessed := true } :: l₂),
       { p with score := p.score + 100, combo := p.combo + 1,
                maxCombo := max p.maxCombo (p.combo + 1),
                perfectCount := p.perfectCount + 1,
                hp := min MAX_HP (p.hp + 2) },
       Judgment.PERFECT) := by
  induction l₁ generalizing p with
  | nil =>
    have hmax : (if p.combo + 1 > p.maxCombo then p.combo + 1 else p.maxCombo) =
        max p.maxCombo (p.combo + 1) := by
      by_cases h : p.combo + 1 > p.maxCombo
      · simp [h, max_eq_right (le_of_lt h)]
      · simp [h, max_eq_left (not_lt.mp h)]
    simp only [List.nil_append, scanJudge, if_pos (And.intro hproc hlane), if_pos h2]
    simp [hmax]
  | cons m rest ih =>
    have hm : ¬ Matchable lane t m := h₁ m (by simp)
    have hrest : ∀ x ∈ rest, ¬ Matchable lane t x := fun x hx => h₁ x (by simp [hx])
    by_cases hc1 : m.isProcessed = false ∧ m.laneIndex = lane
    · have hc3 : ¬ fabs (t - m.spawnTime) < GREAT_WINDOW := by
        intro hw; exact hm ⟨hc1.1, hc1.2, hw⟩
      have hc2 : ¬ fabs (t - m.spawnTime) < PERFECT_WINDOW := by
        intro hw; exact hc3 (lt_trans hw perfect_window_lt_great)
      simp only [List.cons_append, scanJudge, if_pos hc1, if_neg hc2, if_neg hc3, List.append_eq]
      rw [maxCombo_update_noop p hmc]
      simp [ih p hrest hmc]
    · simp only [List.cons_append, scanJudge, if_neg hc1, List.append_eq]
      simp [ih p hrest hmc]

theorem scanJudge_great (lane : Nat) (t : ℚ) (l₁ : List Note) (n : Note) (l₂ : List Note)
    (p : Progress) (h₁ : ∀ m ∈ l₁, ¬ Matchable lane t m)
    (hproc : n.isProcessed = false) (hlane : n.laneIndex = lane)
    (hmc : p.combo ≤ p.maxCombo) (h2 : ¬ fabs (t - n.spawnTime) < PERFECT_WINDOW)
    (h3 : fabs (t - n.spawnTime) < GREAT_WINDOW) :
    scanJudge lane t (l₁ ++ n :: l₂) p =
      (l₁ ++ ({ n with isProcessed := true } :: l₂),
       { p with score := p.score + 50, combo := p.combo + 1,
                maxCombo := max p.maxCombo (p.combo + 1),
                greatCount := p.greatCount + 1,
                hp := min MAX_HP (p.hp + 1) },
       Judgment.GREAT) := by
  induction l₁ generalizing p with
  | nil =>
    have hmax : (if p.combo + 1 > p.maxCombo then p.combo + 1 else p.maxCombo) =
        max p.maxCombo (p.combo + 1) := by
      by_cases h : p.combo + 1 > p.maxCombo
      · simp [h, max_eq_right (le_of_lt h)]
      · simp [h, max_eq_left (not_lt.mp h)]
    simp only [List.nil_append, scanJudge, if_pos (And.intro hproc hlane), if_neg h2, if_pos h3]
    simp [hmax]
  | cons m rest ih =>
    have hm : ¬ Matchable lane t m := h₁ m (by simp)
    have hrest : ∀ x ∈ rest, ¬ Matchable lane t x := fun x hx => h₁ x (by simp [hx])
    by_cases hc1 : m.isProcessed = false ∧ m.laneIndex = lane
    · have hc3 : ¬ fabs (t - m.spawnTime) < GREAT_WINDOW := by
        intro hw; exact hm ⟨hc1.1, hc1.2, hw⟩
      have hc2 : ¬ fabs (t - m.spawnTime) < PERFECT_WINDOW := by
        intro hw; exact hc3 (lt_trans hw perfect_window_lt_great)
      simp only [List.cons_append, scanJudge, if_pos hc1, if_neg hc2, if_neg hc3, List.append_eq]
      rw [maxCombo_update_noop p hmc]
      simp [ih p hrest hmc]
    · simp only [List.cons_append, scanJudge, if_neg hc1, List.append_eq]
      simp [ih p hrest hmc]

end MusicGame

namespace MusicGame

theorem missMark_spec (adjT : ℚ) (l : List Note) (p : Progress) :
    (missMark adjT l p).1 =
      l.map (fun n => if timedOut adjT n then { n with isProcessed := true } else n) ∧
    (missMark adjT l p).2.missCount = p.missCount + (missCountP adjT l : Int) ∧
    (missMark adjT l p).2.hp = p.hp - 10 * (missCountP adjT l : Int) ∧
    (missMark adjT l p).2.combo = (if missCountP adjT l = 0 then p.combo else 0) ∧
    (missMark adjT l p).2.score = p.score ∧
    (missMark adjT l p).2.maxCombo = p.maxCombo ∧
    (missMark adjT l p).2.perfectCount = p.perfectCount ∧
    (missMark adjT l p).2.greatCount = p.greatCount := by
  induction l generalizing p with
  | nil => simp [missMark, missCountP]
  | cons n rest ih =>
    by_cases h1 : timedOut adjT n
    · have hc : missCountP adjT (n :: rest) = missCountP adjT rest + 1 := by
        simp [missCountP, List.countP_cons, h1]
      have h := ih ({ p with combo := 0, missCount := p.missCount + 1, hp := p.hp - 10 })
      simp only [missMark, if_pos h1]
      refine ⟨?_, ?_, ?_, ?_, ?_, ?_, ?_, ?_⟩
      · simp [h.1, h1]
      · rw [h.2.1]; simp [hc]; ring
      · rw [h.2.2.1]; simp [hc]; ring
      · rw [h.2.2.2.1]; simp [hc]
      · rw [h.2.2.2.2.1]
      · rw [h.2.2.2.2.2.1]
      · rw [h.2.2.2.2.2.2.1]
      · rw [h.2.2.2.2.2.2.2]
    · have hc : missCountP adjT (n :: rest) = missCountP adjT rest := by
        simp [missCountP, List.countP_cons, h1]
      have h := ih p
      simp only [missMark, if_neg h1]
      refine ⟨?_, ?_, ?_, ?_, ?_, ?_, ?_, ?_⟩
      · simp [h.1, h1]
      · rw [h.2.1]; simp [hc]
      · rw [h.2.2.1]; simp [hc]
      · rw [h.2.2.2.1]; simp [hc]
      · rw [h.2.2.2.2.1]
      · rw [h.2.2.2.2.2.1]
      · rw [h.2.2.2.2.2.2.1]
      · rw [h.2.2.2.2.2.2.2]

theorem scanJudge_progress_eq (lane : Nat) (t : ℚ) (l : List Note) (p : Progress)
    (hmc : p.combo ≤ p.maxCombo) :
    (scanJudge lane t l p).2.1.score = p.score +
      (match (scanJudge lane t l p).2.2 with
       | Judgment.PERFECT => 100 | Judgment.GREAT => 50 | _ => 0) ∧
    (scanJudge lane t l p).2.1.perfectCount = p.perfectCount +
      (match (scanJudge lane t l p).2.2 with | Judgment.PERFECT => 1 | _ => 0) ∧
    (scanJudge lane t l p).2.1.greatCount = p.greatCount +
      (match (scanJudge lane t l p).2.2 with | Judgment.GREAT => 1 | _ => 0) ∧
    (scanJudge lane t l p).2.1.missCount = p.missCount ∧
    ((scanJudge lane t l p).2.2 = Judgment.NONE → (scanJudge lane t l p).2.1 = p) ∧
    (p.hp ≤ MAX_HP → (scanJudge lane t l p).2.1.hp ≤ MAX_HP) ∧
    (scanJudge lane t l p).2.1.combo ≤ (scanJudge lane t l p).2.1.maxCombo := by
  induction l generalizing p with
  | nil => simp [scanJudge, hmc]
  | cons n rest ih =>
    by_cases h1 : n.isProcessed = false ∧ n.laneIndex = lane
    · by_cases h2 : fabs (t - n.spawnTime) < PERFECT_WINDOW
      · simp only [scanJudge, if_pos h1, if_pos h2]
        refine ⟨by simp, by simp, by simp, by simp, by simp, ?_, ?_⟩
        · intro hhp; simp [min_le_left]
        · by_cases h : p.combo + 1 > p.maxCombo <;> simp [h] <;> omega
      · by_cases h3 : fabs (t - n.spawnTime) < GREAT_WINDOW
        · simp only [scanJudge, if_pos h1, if_neg h2, if_pos h3]
          refine ⟨by simp, by simp, by simp, by simp, by simp, ?_, ?_⟩
          · intro hhp; simp [min_le_left]
          · by_cases h : p.combo + 1 > p.maxCombo <;> simp [h] <;> omega
        · simp only [scanJudge, if_pos h1, if_neg h2, if_neg h3]
          rw [maxCombo_update_noop p hmc]
          exact ih p hmc
    · simp only [scanJudge, if_neg h1]
      exact ih p hmc

end MusicGame

namespace MusicGame

theorem judgeEvent_facts (st : PlayState) (inp : Nat × ℚ)
    (hmc : st.prog.combo ≤ st.prog.maxCombo) :
    (judgeEvent st inp).prog.combo ≤ (judgeEvent st inp).prog.maxCombo ∧
    (st.prog.hp ≤ MAX_HP → (judgeEvent st inp).prog.hp ≤ MAX_HP) ∧
    (scoreInv st.prog → scoreInv (judgeEvent st inp).prog) ∧
    st.prog.score ≤ (judgeEvent st inp).prog.score ∧
    (judgeEvent st inp).nextNoteIndex = st.nextNoteIndex := by
  have h := scanJudge_progress_eq inp.1 inp.2 st.activeNotes st.prog hmc
  obtain ⟨hs, hpc, hgc, hm, hnone, hhp, hcm⟩ := h
  refine ⟨hcm, hhp, ?_, ?_, rfl⟩
  · intro hinv
    unfold scoreInv at hinv ⊢
    cases hj : (scanJudge inp.1 inp.2 st.activeNotes st.prog).2.2
    all_goals simp only [hj] at hs hpc hgc
    all_goals simp only [judgeEvent] at hs hpc hgc ⊢
    all_goals omega
  · cases hj : (scanJudge inp.1 inp.2 st.activeNotes st.prog).2.2
    all_goals simp only [hj] at hs
    all_goals simp only [judgeEvent] at hs ⊢
    all_goals omega

theorem processInputs_facts (inputs : List (Nat × ℚ)) (st : PlayState)
    (hmc : st.prog.combo ≤ st.prog.maxCombo) :
    (processInputs inputs st).prog.combo ≤ (processInputs inputs st).prog.maxCombo ∧
    (st.prog.hp ≤ MAX_HP → (processInputs inputs st).prog.hp ≤ MAX_HP) ∧
    (scoreInv st.prog → scoreInv (processInputs inputs st).prog) ∧
    st.prog.score ≤ (processInputs inputs st).prog.score ∧
    (processInputs inputs st).nextNoteIndex = st.nextNoteIndex := by
  induction inputs generalizing st with
  | nil => exact ⟨hmc, fun h => h, fun h => h, le_refl _, rfl⟩
  | cons i rest ih =>
    have h1 := judgeEvent_facts st i hmc
    have h2 := ih (judgeEvent st i) h1.1
    unfold processInputs at h2 ⊢
    simp only [List.foldl_cons]
    refine ⟨h2.1, ?_, ?_, ?_, ?_⟩
    · intro hhp; exact h2.2.1 (h1.2.1 hhp)
    · intro hinv; exact h2.2.2.1 (h1.2.2.1 hinv)
    · exact le_trans h1.2.2.2.1 h2.2.2.2.1
    · rw [h2.2.2.2.2, h1.2.2.2.2]

theorem sorted_first_match_min (lane : Nat) (t : ℚ) (l₁ : List Note) (n : Note) (l₂ : List Note)
    (hsort : SortedByTime (l₁ ++ n :: l₂)) (h₁ : ∀ m ∈ l₁, ¬ Matchable lane t m) :
    ∀ m ∈ l₁ ++ n :: l₂, Matchable lane t m → n.spawnTime ≤ m.spawnTime := by
  intro m hm hmatch
  rcases List.mem_append.mp hm with hm1 | hm2
  · exact absurd hmatch (h₁ m hm1)
  · rcases List.mem_cons.mp hm2 with rfl | hm3
    · exact le_refl _
    · have h := (List.pairwise_append.mp hsort).2.1
      exact (List.pairwise_cons.mp h).1 m hm3

end MusicGame

namespace MusicGame

theorem flagMono_trans {a b c : Note} (h1 : FlagMono a b) (h2 : FlagMono b c) : FlagMono a c := by
  obtain ⟨hl1, ht1, hp1, hm1⟩ := h1
  obtain ⟨hl2, ht2, hp2, hm2⟩ := h2
  refine ⟨hl2.trans hl1, ht2.trans ht1, ?_, fun h => hm2 (hm1 h)⟩
  intro h
  rw [hp2 (hm1 h), hp1 h]

theorem forall2_flagMono_trans {l1 l2 l3 : List Note}
    (h1 : List.Forall₂ FlagMono l1 l2) (h2 : List.Forall₂ FlagMono l2 l3) :
    List.Forall₂ FlagMono l1 l3 := by
  induction h1 generalizing l3 with
  | nil => cases h2; exact List.Forall₂.nil
  | cons hab h ih =>
    cases h2 with
    | cons hbc h' => exact List.Forall₂.cons (flagMono_trans hab hbc) (ih h')

theorem processInputs_flagMono (inputs : List (Nat × ℚ)) (st : PlayState) :
    List.Forall₂ FlagMono st.activeNotes (processInputs inputs st).activeNotes := by
  induction inputs generalizing st with
  | nil => exact forall2_flagMono_refl _
  | cons i rest ih =>
    have h1 : List.Forall₂ FlagMono st.activeNotes (judgeEvent st i).activeNotes :=
      scanJudge_flagMono i.1 i.2 st.activeNotes st.prog
    have h2 := ih (judgeEvent st i)
    unfold processInputs at h2 ⊢
    simp only [List.foldl_cons]
    exact forall2_flagMono_trans h1 h2

/-- C1: judged flags only move from false to true, at most once per note.
Every queued input event and the timeout pass preserve each active
note's lane and timestamp, leave an already-judged note entirely
untouched (so it is never judged again), and never reset the judged
flag to false; eviction only removes notes; and a session reset starts
from an empty active set. -/
theorem claim_C1_judged_at_most_once (inputs : List (Nat × ℚ)) (st : PlayState)
    (lane : Nat) (t adjT : ℚ) (l : List Note) (p : Progress) :
    List.Forall₂ FlagMono st.activeNotes (processInputs inputs st).activeNotes ∧
    List.Forall₂ FlagMono l (scanJudge lane t l p).1 ∧
    List.Forall₂ FlagMono l (missMark adjT l p).1 ∧
    (l.filter (fun n => !(n.isProcessed && decide (n.spawnTime < adjT - 1)))).Sublist l ∧
    initState.activeNotes = [] :=
  ⟨processInputs_flagMono inputs st, scanJudge_flagMono lane t l p,
   missMark_flagMono adjT l p, List.filter_sublist l, rfl⟩

/-- C2: an input event scans the unjudged same-lane active notes in list
order.  If none is inside the wider tolerance the call returns `NONE`
and changes nothing at all; otherwise exactly the first such note is
marked, the outcome is not `NONE`, and under sortedness of the active
list the matched note has the smallest timestamp among all matchable
notes. -/
theorem claim_C2_input_scan (lane : Nat) (t : ℚ) (p : Progress)
    (hlane : lane < LANE_COUNT) (hmc : p.combo ≤ p.maxCombo) :
    (∀ l, (∀ m ∈ l, ¬ Matchable lane t m) → scanJudge lane t l p = (l, p, Judgment.NONE)) ∧
    (∀ l₁ n l₂, (∀ m ∈ l₁, ¬ Matchable lane t m) → Matchable lane t n →
      (scanJudge lane t (l₁ ++ n :: l₂) p).1 = l₁ ++ ({ n with isProcessed := true } :: l₂) ∧
      (scanJudge lane t (l₁ ++ n :: l₂) p).2.2 ≠ Judgment.NONE ∧
      (SortedByTime (l₁ ++ n :: l₂) →
        ∀ m ∈ l₁ ++ n :: l₂, Matchable lane t m → n.spawnTime ≤ m.spawnTime)) := by
  refine ⟨fun l hall => scanJudge_no_match lane t l p hall hmc, fun l₁ n l₂ h₁ hn => ?_⟩
  have h := scanJudge_match_list lane t l₁ n l₂ p h₁ hn
  exact ⟨h.1, h.2, fun hsort => sorted_first_match_min lane t l₁ n l₂ hsort h₁⟩

/-- Witness for C2 at the two-note tie-break scenario: two unjudged notes
in lane 1 at t = 2.0 and t = 2.05, input (1, 2.02): the earlier note is
the one marked, the outcome is a hit, and the matched timestamp is
minimal among matchable notes. -/
theorem claim_C2_input_scan_witness :
    (scanJudge 1 (101/50) ([] ++ (⟨1, 2, false⟩ : Note) :: [⟨1, 41/20, false⟩]) initState.prog).1 =
      [] ++ ((⟨1, 2, true⟩ : Note) :: [⟨1, 41/20, false⟩]) ∧
    (scanJudge 1 (101/50) ([] ++ (⟨1, 2, false⟩ : Note) :: [⟨1, 41/20, false⟩])
        initState.prog).2.2 ≠ Judgment.NONE ∧
    (SortedByTime ([] ++ (⟨1, 2, false⟩ : Note) :: [⟨1, 41/20, false⟩]) →
      ∀ m ∈ [] ++ (⟨1, 2, false⟩ : Note) :: [⟨1, 41/20, false⟩],
        Matchable 1 (101/50) m → (⟨1, 2, false⟩ : Note).spawnTime ≤ m.spawnTime) := by
  have h := (claim_C2_input_scan 1 (101/50) initState.prog
      (by norm_num [LANE_COUNT]) (by norm_num [initState])).2
    [] ⟨1, 2, false⟩ [⟨1, 41/20, false⟩] (by simp)
    (by norm_num [Matchable, fabs, GREAT_WINDOW])
  exact h

/-- C3: classification and effects of the first matching unjudged note:
inside the Perfect window the outcome is Perfect with +100 score, +1
perfect count, +1 combo, maxCombo raised and clamped +2 HP; inside only
the Great window the outcome is Great with +50 score, +1 great count,
+1 combo, maxCombo raised and clamped +1 HP; and the Perfect score gain
strictly exceeds the Great one. -/
theorem claim_C3_classification (lane : Nat) (t : ℚ) (l₁ : List Note) (n : Note)
    (l₂ : List Note) (p : Progress) (h₁ : ∀ m ∈ l₁, ¬ Matchable lane t m)
    (hproc : n.isProcessed = false) (hlane : n.laneIndex = lane)
    (hmc : p.combo ≤ p.maxCombo) :
    (fabs (t - n.spawnTime) < PERFECT_WINDOW →
      scanJudge lane t (l₁ ++ n :: l₂) p =
        (l₁ ++ ({ n with isProcessed := true } :: l₂),
         { p with score := p.score + 100, combo := p.combo + 1,
                  maxCombo := max p.maxCombo (p.combo + 1),
                  perfectCount := p.perfectCount + 1,
                  hp := min MAX_HP (p.hp + 2) },
         Judgment.PERFECT)) ∧
    (¬ fabs (t - n.spawnTime) < PERFECT_WINDOW → fabs (t - n.spawnTime) < GREAT_WINDOW →
      scanJudge lane t (l₁ ++ n :: l₂) p =
        (l₁ ++ ({ n with isProcessed := true } :: l₂),
         { p with score := p.score + 50, combo := p.combo + 1,
                  maxCombo := max p.maxCombo (p.combo + 1),
                  greatCount := p.greatCount + 1,
                  hp := min MAX_HP (p.hp + 1) },
         Judgment.GREAT)) ∧
    p.score + 50 < p.score + 100 :=
  ⟨fun h2 => scanJudge_perfect lane t l₁ n l₂ p h₁ hproc hlane hmc h2,
   fun h2 h3 => scanJudge_great lane t l₁ n l₂ p h₁ hproc hlane hmc h2 h3,
   by omega⟩

/-- Witness for C3 at Scenario A: one note at lane 2, t = 5.0, input
(2, 5.03) from a fresh session: outcome Perfect, score 100, combo 1. -/
theorem claim_C3_classification_witness :
    scanJudge 2 (503/100) [⟨2, 5, false⟩] initState.prog =
      ([⟨2, 5, true⟩], ⟨100, 1, 1, 1, 0, 0, 100⟩, Judgment.PERFECT) := by
  have h := (claim_C3_classification 2 (503/100) [] ⟨2, 5, false⟩ [] initState.prog
      (by simp) rfl rfl (by norm_num [initState])).1
    (by norm_num [fabs, PERFECT_WINDOW])
  norm_num [initState, MAX_HP, max_def, min_def] at h
  exact h

/-- C4: the timeout pass of a tick marks exactly the active unjudged
notes beyond the Great tolerance (`missWindow = GREAT_WINDOW`), adds one
Miss and 10 HP damage per such note, zeroes the combo exactly when at
least one note timed out, and leaves score, maxCombo and the hit-tier
counters untouched; an already-judged note is never miss-counted. -/
theorem claim_C4_timeout_miss (adjT : ℚ) (l : List Note) (p : Progress) :
    (missMark adjT l p).1 =
      l.map (fun n => if timedOut adjT n then { n with isProcessed := true } else n) ∧
    (missMark adjT l p).2.missCount = p.missCount + (missCountP adjT l : Int) ∧
    (missMark adjT l p).2.hp = p.hp - 10 * (missCountP adjT l : Int) ∧
    (missMark adjT l p).2.combo = (if missCountP adjT l = 0 then p.combo else 0) ∧
    (missMark adjT l p).2.score = p.score ∧
    (missMark adjT l p).2.maxCombo = p.maxCombo ∧
    (missMark adjT l p).2.perfectCount = p.perfectCount ∧
    (missMark adjT l p).2.greatCount = p.greatCount :=
  missMark_spec adjT l p

end MusicGame

namespace MusicGame

/-- Counterexample for C5: health *can* leave `[0, MAX_HP]`.  From a
fresh session, a tick at music time 0 admits two of eleven chart notes,
and a later tick at music time 20 admits the rest and times out all
eleven unjudged notes in one pass: `hp = 100 - 11*10 = -10 < 0`. -/
theorem claim_C5_health_counterexample :
    (frame [⟨0, 1, false⟩, ⟨0, 2, false⟩, ⟨0, 3, false⟩, ⟨0, 4, false⟩, ⟨0, 5, false⟩,
            ⟨0, 6, false⟩, ⟨0, 7, false⟩, ⟨0, 8, false⟩, ⟨0, 9, false⟩, ⟨0, 10, false⟩,
            ⟨0, 11, false⟩] [] 20 (14/5) false
      (frame [⟨0, 1, false⟩, ⟨0, 2, false⟩, ⟨0, 3, false⟩, ⟨0, 4, false⟩, ⟨0, 5, false⟩,
              ⟨0, 6, false⟩, ⟨0, 7, false⟩, ⟨0, 8, false⟩, ⟨0, 9, false⟩, ⟨0, 10, false⟩,
              ⟨0, 11, false⟩] [] 0 (14/5) false initState).1).1.prog.hp = -10 ∧
    (-10 : Int) < 0 := by
  constructor
  · norm_num [frame, processInputs, judgeEvent, admitFrom, missMark, timedOut,
      terminalCheck, initState, GREAT_WINDOW, MAX_HP]
  · norm_num

/-- C5 amended: health never exceeds `MAX_HP` (hit recovery is clamped
above and a timeout only subtracts), and a `NONE` outcome changes
nothing; but a Miss subtracts a fixed 10 with no lower clamp, so health
can go negative (see the counterexample); the whole-frame upper bound
also holds. -/
theorem claim_C5_health_amended (lane : Nat) (t adjT : ℚ) (l : List Note) (p : Progress)
    (hmc : p.combo ≤ p.maxCombo) :
    (p.hp ≤ MAX_HP → (scanJudge lane t l p).2.1.hp ≤ MAX_HP) ∧
    ((scanJudge lane t l p).2.2 = Judgment.NONE → (scanJudge lane t l p).2.1 = p) ∧
    (missMark adjT l p).2.hp = p.hp - 10 * (missCountP adjT l : Int) ∧
    (p.hp ≤ MAX_HP → (missMark adjT l p).2.hp ≤ MAX_HP) ∧
    (∀ chart inputs fallT stopped st, (st : PlayState).prog.combo ≤ st.prog.maxCombo →
      st.prog.hp ≤ MAX_HP →
      (frame chart inputs adjT fallT stopped st).1.prog.hp ≤ MAX_HP) := by
  have hs := scanJudge_progress_eq lane t l p hmc
  have hm := missMark_spec adjT l p
  refine ⟨hs.2.2.2.2.2.1, hs.2.2.2.2.1, hm.2.2.1, ?_, ?_⟩
  · intro hhp
    rw [hm.2.2.1]
    have : (0 : Int) ≤ (missCountP adjT l : Int) := Int.ofNat_nonneg _
    omega
  · intro chart inputs fallT stopped st hmc' hhp
    have h1 := processInputs_facts inputs st hmc'
    have h2 := missMark_spec adjT
      ((processInputs inputs st).activeNotes ++
        (admitFrom (adjT + fallT) (chart.drop (processInputs inputs st).nextNoteIndex)).1)
      (processInputs inputs st).prog
    have heq : (frame chart inputs adjT fallT stopped st).1.prog =
        (missMark adjT
          ((processInputs inputs st).activeNotes ++
            (admitFrom (adjT + fallT) (chart.drop (processInputs inputs st).nextNoteIndex)).1)
          (processInputs inputs st).prog).2 := rfl
    rw [heq, h2.2.2.1]
    have hb := h1.2.1 hhp
    have : (0 : Int) ≤ (missCountP adjT
      ((processInputs inputs st).activeNotes ++
        (admitFrom (adjT + fallT) (chart.drop (processInputs inputs st).nextNoteIndex)).1) : Int) :=
      Int.ofNat_nonneg _
    omega

/-- Witness for C5 amended at a concrete instance: a fresh session, one
unjudged active note in lane 0 at t = 1, input time 10 (no match) and a
tick at music time 0 (no timeout). -/
theorem claim_C5_health_amended_witness :
    (initState.prog.hp ≤ MAX_HP →
      (scanJudge 0 10 [⟨0, 1, false⟩] initState.prog).2.1.hp ≤ MAX_HP) ∧
    ((scanJudge 0 10 [⟨0, 1, false⟩] initState.prog).2.2 = Judgment.NONE →
      (scanJudge 0 10 [⟨0, 1, false⟩] initState.prog).2.1 = initState.prog) ∧
    (missMark 0 [⟨0, 1, false⟩] initState.prog).2.hp =
      initState.prog.hp - 10 * (missCountP 0 [⟨0, 1, false⟩] : Int) ∧
    (initState.prog.hp ≤ MAX_HP →
      (missMark 0 [⟨0, 1, false⟩] initState.prog).2.hp ≤ MAX_HP) ∧
    (∀ chart inputs fallT stopped st, (st : PlayState).prog.combo ≤ st.prog.maxCombo →
      st.prog.hp ≤ MAX_HP →
      (frame chart inputs 0 fallT stopped st).1.prog.hp ≤ MAX_HP) :=
  claim_C5_health_amended 0 10 0 [⟨0, 1, false⟩] initState.prog (by norm_num [initState])

/-- Counterexample for C6: a completed flag without chart exhaustion.
One chart note at t = 100 is still pending (cursor 0 of 1) at a tick at
music time 1 with the playback reporting stopped: the code reports
completion anyway, because the terminal check never consults the chart
cursor. -/
theorem claim_C6_terminal_counterexample :
    (frame [⟨0, 100, false⟩] [] 1 (14/5) true initState).2 = TerminalFlag.completed ∧
    (frame [⟨0, 100, false⟩] [] 1 (14/5) true initState).1.nextNoteIndex = 0 ∧
    ([(⟨0, 100, false⟩ : Note)] : List Note).length = 1 := by
  refine ⟨?_, ?_, rfl⟩
  · norm_num [frame, processInputs, judgeEvent, admitFrom, missMark, timedOut,
      terminalCheck, initState, GREAT_WINDOW, MAX_HP]
  · norm_num [frame, processInputs, judgeEvent, admitFrom, missMark, timedOut,
      terminalCheck, initState, GREAT_WINDOW, MAX_HP]

/-- C6 amended: the end-of-frame check reports failure exactly when
health is ≤ 0 (checked first, so failure wins any tie), reports
completion exactly when health is positive, playback reports stopped
and the active set is empty — the chart cursor is not consulted — and
the flag is computed from the state after all of the frame's updates. -/
theorem claim_C6_terminal_amended (hp : Int) (stopped : Bool) (act : List Note) :
    (terminalCheck hp stopped act = TerminalFlag.failed ↔ hp ≤ 0) ∧
    (terminalCheck hp stopped act = TerminalFlag.completed ↔
      ¬ hp ≤ 0 ∧ stopped = true ∧ act = []) ∧
    (∀ chart inputs adjT fallT st,
      (frame chart inputs adjT fallT stopped st).2 =
        terminalCheck (frame chart inputs adjT fallT stopped st).1.prog.hp stopped
          (frame chart inputs adjT fallT stopped st).1.activeNotes) := by
  refine ⟨?_, ?_, fun chart inputs adjT fallT st => rfl⟩
  · by_cases h : hp ≤ 0
    · simp [terminalCheck, h]
    · cases stopped <;> cases act <;> simp [terminalCheck, h]
  · by_cases h : hp ≤ 0
    · simp [terminalCheck, h]
    · cases stopped <;> cases act <;> simp [terminalCheck, h]

end MusicGame

namespace MusicGame

/-- Counterexample for C7: the sort at the end of chart loading is
`std::sort`, whose contract does not preserve the source order of
equal-timestamp notes.  For two simultaneous note-ons (keys 0 and 1 at
t = 1) the swapped output satisfies the sort's contract while differing
from the extraction (source) order, so "ties appear in source order" is
not a property of the code. -/
theorem claim_C7_stable_sort_counterexample :
    IsLoadResult (Option.some [⟨true, 0, 1⟩, ⟨true, 1, 1⟩])
      [⟨1, 1, false⟩, ⟨0, 1, false⟩] ∧
    extractNotes [⟨true, 0, 1⟩, ⟨true, 1, 1⟩] = [⟨0, 1, false⟩, ⟨1, 1, false⟩] ∧
    ([(⟨1, 1, false⟩ : Note), ⟨0, 1, false⟩] : List Note) ≠ [⟨0, 1, false⟩, ⟨1, 1, false⟩] := by
  have hex : extractNotes [⟨true, 0, 1⟩, ⟨true, 1, 1⟩] = [⟨0, 1, false⟩, ⟨1, 1, false⟩] := by
    norm_num [extractNotes, LANE_COUNT]
  refine ⟨⟨?_, ?_⟩, hex, by simp⟩
  · rw [hex]
    exact List.Perm.swap _ _ _
  · norm_num [SortedByTime]

/-- C7 amended: every list satisfying the loader's contract is sorted
non-decreasing by timestamp and is a permutation of the extracted
note-on events — one note per note-on, no deduplication, lanes reduced
mod `LANE_COUNT`, flags cleared — but the relative order of
equal-timestamp notes is unspecified (`std::sort` is not stable). -/
theorem claim_C7_sorted_permutation (evs : List MidiEvent) (out : List Note)
    (h : IsLoadResult (Option.some evs) out) :
    SortedByTime out ∧ out.Perm (extractNotes evs) ∧
    out.length = (evs.filter (fun e => e.isNoteOn)).length ∧
    (∀ n ∈ out, n.laneIndex < LANE_COUNT ∧ n.isProcessed = false) := by
  obtain ⟨hperm, hsort⟩ := h
  refine ⟨hsort, hperm, ?_, ?_⟩
  · rw [hperm.length_eq]
    simp [extractNotes]
  · intro n hn
    have hn' : n ∈ extractNotes evs := hperm.mem_iff.mp hn
    simp only [extractNotes, List.mem_map, List.mem_filter] at hn'
    obtain ⟨e, _, he⟩ := hn'
    constructor
    · rw [← he]
      exact Nat.mod_lt _ (by norm_num [LANE_COUNT])
    · rw [← he]

/-- Witness for C7 amended: one note-on, its singleton chart. -/
theorem claim_C7_sorted_permutation_witness :
    SortedByTime [⟨0, 1, false⟩] ∧
    ([(⟨0, 1, false⟩ : Note)] : List Note).Perm (extractNotes [⟨true, 0, 1⟩]) ∧
    ([(⟨0, 1, false⟩ : Note)] : List Note).length =
      (([⟨true, 0, 1⟩] : List MidiEvent).filter (fun e => e.isNoteOn)).length := by
  have h := claim_C7_sorted_permutation [⟨true, 0, 1⟩] [⟨0, 1, false⟩]
    ⟨by norm_num [extractNotes, LANE_COUNT], by norm_num [SortedByTime]⟩
  exact ⟨h.1, h.2.1, h.2.2.1⟩

/-- Counterexample for C8: within one main-loop iteration the queued
inputs are judged *before* the scheduler admits notes, not after.  A
note at t = 3 is admitted by the tick at music time 2, and an input at
(lane 0, t = 3) in that same iteration would hit it perfectly under the
spec's order — the code scores 0 because the input is processed against
the still-empty active set, while the spec's order scores 100. -/
theorem claim_C8_order_counterexample :
    (frame [⟨0, 3, false⟩] [(0, 3)] 2 (14/5) false initState).1.prog.score = 0 ∧
    (frameSpecOrdered [⟨0, 3, false⟩] [(0, 3)] 2 (14/5) false initState).1.prog.score = 100 ∧
    frame [⟨0, 3, false⟩] [(0, 3)] 2 (14/5) false initState ≠
      frameSpecOrdered [⟨0, 3, false⟩] [(0, 3)] 2 (14/5) false initState := by
  have h1 : (frame [⟨0, 3, false⟩] [(0, 3)] 2 (14/5) false initState).1.prog.score = 0 := by
    norm_num [frame, processInputs, judgeEvent, scanJudge, admitFrom, missMark, timedOut,
      terminalCheck, initState, fabs, PERFECT_WINDOW, GREAT_WINDOW, MAX_HP]
  have h2 : (frameSpecOrdered [⟨0, 3, false⟩] [(0, 3)] 2 (14/5) false
      initState).1.prog.score = 100 := by
    norm_num [frameSpecOrdered, schedulerPhase, processInputs, judgeEvent, scanJudge,
      admitFrom, missMark, timedOut, terminalCheck, initState, fabs, PERFECT_WINDOW,
      GREAT_WINDOW, MAX_HP]
  refine ⟨h1, h2, fun heq => ?_⟩
  rw [heq] at h1
  rw [h1] at h2
  exact absurd h2 (by norm_num)

/-- C8 amended: the fixed in-frame order of the code is (a) queued input
events through the judgment scan in arrival order, then (b) the
scheduler phase — admission, timeout pass, eviction — then (c) the
terminal check on the updated state. -/
theorem claim_C8_order_amended (chart : List Note) (inputs : List (Nat × ℚ))
    (adjT fallT : ℚ) (stopped : Bool) (st : PlayState) :
    frame chart inputs adjT fallT stopped st =
      (schedulerPhase chart adjT fallT (processInputs inputs st),
       terminalCheck (schedulerPhase chart adjT fallT (processInputs inputs st)).prog.hp
         stopped (schedulerPhase chart adjT fallT (processInputs inputs st)).activeNotes) :=
  rfl

end MusicGame

namespace MusicGame

/-- C9: chart loading yields a sorted sequence or fails, failure being
the empty chart: an unreadable source gives the empty chart, a source
with no note-on events gives the empty chart, and the session-start
flow refuses to start play on an empty chart (and starts a fresh
session otherwise). -/
theorem claim_C9_load_failure (src : Option (List MidiEvent)) (out : List Note)
    (hload : IsLoadResult src out) :
    (src = Option.none → out = [] ∧ startSession out = Option.none) ∧
    (∀ evs, src = Option.some evs → (∀ e ∈ evs, e.isNoteOn = false) →
      out = [] ∧ startSession out = Option.none) ∧
    (out ≠ [] → startSession out = Option.some initState) := by
  refine ⟨?_, ?_, ?_⟩
  · rintro rfl
    have h : out = [] := hload
    exact ⟨h, by simp [startSession, h]⟩
  · rintro evs rfl hno
    obtain ⟨hperm, _⟩ := hload
    have hext : extractNotes evs = [] := by
      unfold extractNotes
      have hf : evs.filter (fun e => e.isNoteOn) = [] := by
        rw [List.filter_eq_nil_iff]
        intro a ha
        simp [hno a ha]
      rw [hf]
      rfl
    rw [hext] at hperm
    have h : out = [] := hperm.eq_nil
    exact ⟨h, by simp [startSession, h]⟩
  · intro hne
    simp [startSession, hne]

/-- Witness for C9: an unreadable source and a one-note chart. -/
theorem claim_C9_load_failure_witness :
    startSession ([] : List Note) = Option.none ∧
    startSession [⟨0, 1, false⟩] = Option.some initState := by
  have hA := (claim_C9_load_failure Option.none [] rfl).1 rfl
  have hB := (claim_C9_load_failure (Option.some [⟨true, 0, 1⟩]) [⟨0, 1, false⟩]
      ⟨by norm_num [extractNotes, LANE_COUNT], by norm_num [SortedByTime]⟩).2.2 (by simp)
  exact ⟨hA.2, hB⟩

/-- C10: score is determined by the tier counters —
`score = 100*perfectCount + 50*greatCount` holds at session start with
all three zero, is preserved by every frame, and score never decreases
within a session. -/
theorem claim_C10_score_determined (chart : List Note) (inputs : List (Nat × ℚ))
    (adjT fallT : ℚ) (stopped : Bool) (st : PlayState)
    (hmc : st.prog.combo ≤ st.prog.maxCombo) (hinv : scoreInv st.prog) :
    scoreInv initState.prog ∧ initState.prog.score = 0 ∧
    initState.prog.perfectCount = 0 ∧ initState.prog.greatCount = 0 ∧
    scoreInv (frame chart inputs adjT fallT stopped st).1.prog ∧
    st.prog.score ≤ (frame chart inputs adjT fallT stopped st).1.prog.score := by
  have h1 := processInputs_facts inputs st hmc
  have h2 := missMark_spec adjT
    ((processInputs inputs st).activeNotes ++
      (admitFrom (adjT + fallT) (chart.drop (processInputs inputs st).nextNoteIndex)).1)
    (processInputs inputs st).prog
  have heq : (frame chart inputs adjT fallT stopped st).1.prog =
      (missMark adjT
        ((processInputs inputs st).activeNotes ++
          (admitFrom (adjT + fallT) (chart.drop (processInputs inputs st).nextNoteIndex)).1)
        (processInputs inputs st).prog).2 := rfl
  refine ⟨by norm_num [scoreInv, initState], rfl, rfl, rfl, ?_, ?_⟩
  · unfold scoreInv
    rw [heq, h2.2.2.2.2.1, h2.2.2.2.2.2.2.1, h2.2.2.2.2.2.2.2]
    exact h1.2.2.1 hinv
  · rw [heq, h2.2.2.2.2.1]
    exact h1.2.2.2.1

/-- Witness for C10 at a concrete instance: a fresh session, a one-note
chart hit perfectly by the queued input. -/
theorem claim_C10_score_determined_witness :
    scoreInv initState.prog ∧ initState.prog.score = 0 ∧
    initState.prog.perfectCount = 0 ∧ initState.prog.greatCount = 0 ∧
    scoreInv (frame [⟨0, 5, false⟩] [(0, 5)] 0 (14/5) false initState).1.prog ∧
    initState.prog.score ≤
      (frame [⟨0, 5, false⟩] [(0, 5)] 0 (14/5) false initState).1.prog.score :=
  claim_C10_score_determined [⟨0, 5, false⟩] [(0, 5)] 0 (14/5) false initState
    (by norm_num [initState]) (by norm_num [scoreInv, initState])

end MusicGame
